import Mathlib

/-!
Verification of the backport orchestration engine of `sourcegraph/backport`.

The development shallowly embeds the TypeScript sources:
* `src/utils.ts` — `stripTestPlanFromPRBody`;
* `src/backport.ts` — `getBaseBranchFromLabel`, `getBaseBranches`,
  `backportOnce`, `getFailedBackportCommentBody` and the `backport`
  orchestrator.

External commands and REST calls are modelled by an environment (`Env`)
that decides, for each issued effect, whether it succeeds or fails; the
orchestrator is a pure function returning the ordered trace of issued
effects together with either an error or the result map.
-/

set_option autoImplicit false

namespace Backport

instance {α β : Type} [DecidableEq α] [DecidableEq β] :
    DecidableEq (Except α β) := fun x y =>
  match x, y with
  | .ok a, .ok b =>
    if h : a = b then isTrue (by rw [h])
    else isFalse (by intro hc; injection hc; contradiction)
  | .error a, .error b =>
    if h : a = b then isTrue (by rw [h])
    else isFalse (by intro hc; injection hc; contradiction)
  | .ok _, .error _ => isFalse (fun hc => Except.noConfusion hc)
  | .error _, .ok _ => isFalse (fun hc => Except.noConfusion hc)

/-! ### Substring search (JS `String.prototype.indexOf`) -/

/-- `matchesAt pat l` holds when `pat` is an initial segment of `l`
(character-by-character comparison). -/
def matchesAt : List Char → List Char → Bool
  | [], _ => true
  | _ :: _, [] => false
  | p :: ps, c :: cs => p == c && matchesAt ps cs

/-- Index of the first occurrence of `pat` inside a list, if any;
`findSub` scans left to right. -/
def findSub (pat : List Char) : List Char → Option Nat
  | [] => if matchesAt pat [] then some 0 else none
  | c :: rest =>
    if matchesAt pat (c :: rest) then some 0
    else (findSub pat rest).map (· + 1)

/-- JS `hay.indexOf(pat, start)` (with `none` standing for `-1`). -/
def indexOfFrom (l pat : List Char) (start : Nat) : Option Nat :=
  (findSub pat (l.drop start)).map (· + start)

theorem matchesAt_nil_false (p : Char) (ps : List Char) :
    matchesAt (p :: ps) [] = false := rfl

theorem findSub_some (pat : List Char) :
    ∀ (l : List Char) (i : Nat), findSub pat l = some i →
      matchesAt pat (l.drop i) = true ∧
      ∀ m, m < i → matchesAt pat (l.drop m) = false := by
  intro l
  induction l with
  | nil =>
    intro i h
    unfold findSub at h
    by_cases hm : matchesAt pat [] = true
    · rw [if_pos hm] at h
      cases h
      exact ⟨hm, fun m hm' => absurd hm' (Nat.not_lt_zero m)⟩
    · rw [if_neg hm] at h
      cases h
  | cons c rest ih =>
    intro i h
    unfold findSub at h
    by_cases hm : matchesAt pat (c :: rest) = true
    · rw [if_pos hm] at h
      cases h
      exact ⟨hm, fun m hm' => absurd hm' (Nat.not_lt_zero m)⟩
    · rw [if_neg hm] at h
      rcases Option.map_eq_some'.mp h with ⟨j, hj, rfl⟩
      rcases ih j hj with ⟨hocc, hmin⟩
      refine ⟨hocc, ?_⟩
      intro m hmlt
      cases m with
      | zero => simpa using Bool.eq_false_iff.mpr hm
      | succ m' =>
        have : m' < j := Nat.lt_of_succ_lt_succ hmlt
        simpa using hmin m' this

theorem findSub_none (pat : List Char) :
    ∀ (l : List Char), findSub pat l = none →
      ∀ m, matchesAt pat (l.drop m) = false := by
  intro l
  induction l with
  | nil =>
    intro h m
    unfold findSub at h
    by_cases hm : matchesAt pat [] = true
    · rw [if_pos hm] at h; cases h
    · simpa using Bool.eq_false_iff.mpr hm
  | cons c rest ih =>
    intro h m
    unfold findSub at h
    by_cases hm : matchesAt pat (c :: rest) = true
    · rw [if_pos hm] at h; cases h
    · rw [if_neg hm] at h
      have hrest : findSub pat rest = none := by
        cases hr : findSub pat rest with
        | none => rfl
        | some j => rw [hr] at h; cases h
      cases m with
      | zero => simpa using Bool.eq_false_iff.mpr hm
      | succ m' => simpa using ih hrest m'

theorem findSub_complete (pat : List Char) (l : List Char) (i : Nat)
    (h : matchesAt pat (l.drop i) = true) :
    ∃ j, findSub pat l = some j ∧ j ≤ i := by
  cases hf : findSub pat l with
  | none => exact absurd h (by simp [findSub_none pat l hf i])
  | some j =>
    refine ⟨j, rfl, ?_⟩
    by_contra hle
    have : i < j := Nat.lt_of_not_le hle
    have := (findSub_some pat l j hf).2 i this
    rw [h] at this
    cases this

theorem indexOfFrom_some (l pat : List Char) (s r : Nat)
    (h : indexOfFrom l pat s = some r) :
    s ≤ r ∧ matchesAt pat (l.drop r) = true := by
  rcases Option.map_eq_some'.mp h with ⟨k, hk, rfl⟩
  have hocc := (findSub_some pat (l.drop s) k hk).1
  rw [List.drop_drop] at hocc
  rw [Nat.add_comm s k] at hocc
  exact ⟨Nat.le_add_left s k, hocc⟩

theorem indexOfFrom_some_min (l pat : List Char) (s r : Nat)
    (h : indexOfFrom l pat s = some r) :
    ∀ m, s ≤ m → m < r → matchesAt pat (l.drop m) = false := by
  rcases Option.map_eq_some'.mp h with ⟨k, hk, rfl⟩
  intro m hsm hmr
  have hmin := (findSub_some pat (l.drop s) k hk).2 (m - s)
    (by omega)
  rw [List.drop_drop] at hmin
  have : s + (m - s) = m := by omega
  rw [this] at hmin
  exact hmin

theorem indexOfFrom_none (l pat : List Char) (s : Nat)
    (h : indexOfFrom l pat s = none) :
    ∀ m, s ≤ m → matchesAt pat (l.drop m) = false := by
  intro m hsm
  have hf : findSub pat (l.drop s) = none := by
    cases hr : findSub pat (l.drop s) with
    | none => rfl
    | some j => rw [indexOfFrom, hr] at h; cases h
  have := findSub_none pat (l.drop s) hf (m - s)
  rw [List.drop_drop] at this
  have hms : s + (m - s) = m := by omega
  rw [hms] at this
  exact this

theorem indexOfFrom_eq_some_of (l pat : List Char) (s i : Nat)
    (hsi : s ≤ i) (hocc : matchesAt pat (l.drop i) = true)
    (hmin : ∀ m, s ≤ m → m < i → matchesAt pat (l.drop m) = false) :
    indexOfFrom l pat s = some i := by
  have hocc' : matchesAt pat ((l.drop s).drop (i - s)) = true := by
    rw [List.drop_drop]
    have : s + (i - s) = i := by omega
    rw [this]; exact hocc
  rcases findSub_complete pat (l.drop s) (i - s) hocc' with ⟨j, hj, hji⟩
  have hoccj := (findSub_some pat (l.drop s) j hj).1
  rw [List.drop_drop] at hoccj
  have hcases : j + s = i := by
    by_contra hne
    have hlt : j + s < i := by omega
    have := hmin (j + s) (Nat.le_add_left s j) hlt
    rw [Nat.add_comm j s] at this
    rw [hoccj] at this
    cases this
  rw [indexOfFrom, hj]
  simp [hcases]

theorem indexOfFrom_eq_none_of (l pat : List Char) (s : Nat)
    (h : ∀ m, s ≤ m → matchesAt pat (l.drop m) = false) :
    indexOfFrom l pat s = none := by
  cases hr : indexOfFrom l pat s with
  | none => rfl
  | some r =>
    rcases indexOfFrom_some l pat s r hr with ⟨hsr, hocc⟩
    have := h r hsr
    rw [hocc] at this
    cases this

/-- Occurrences of a non-empty pattern past the end of the text are
impossible, so a bound by the text length loses nothing. -/
theorem matchesAt_of_le_length (l : List Char) (p : Char) (ps : List Char)
    (m : Nat) (h : l.length ≤ m) : matchesAt (p :: ps) (l.drop m) = false := by
  have : l.drop m = [] := List.drop_eq_nil_of_le h
  rw [this]
  exact matchesAt_nil_false p ps

/-! ### `stripTestPlanFromPRBody` (src/utils.ts) -/

def startDelimiter : List Char := "<!--".toList

def endDelimiter : List Char := "-->".toList

/-- Embedding of `stripTestPlanFromPRBody` from `src/utils.ts`:
find the first `<!--`; if absent return the body unchanged; find the
first `-->` after it; if absent return the body unchanged; otherwise
remove everything from the first delimiter through the second,
inclusive. -/
def stripTestPlanFromPRBody (body : String) : String :=
  match indexOfFrom body.toList startDelimiter 0 with
  | none => body
  | some startIndex =>
    match indexOfFrom body.toList endDelimiter
        (startIndex + startDelimiter.length) with
    | none => body
    | some endIndex =>
      String.mk (body.toList.take startIndex ++
        body.toList.drop (endIndex + endDelimiter.length))

theorem startDelimiter_length : startDelimiter.length = 4 := rfl

theorem endDelimiter_length : endDelimiter.length = 3 := rfl

theorem startDelimiter_cons : ∃ p ps, startDelimiter = p :: ps := ⟨'<', _, rfl⟩

theorem endDelimiter_cons : ∃ p ps, endDelimiter = p :: ps := ⟨'-', _, rfl⟩

/-- Lift a length-bounded absence of occurrences to all indices. -/
theorem no_start_occurrence_all (l : List Char)
    (h : ∀ m, m < l.length → matchesAt startDelimiter (l.drop m) = false) :
    ∀ m, matchesAt startDelimiter (l.drop m) = false := by
  intro m
  by_cases hm : m < l.length
  · exact h m hm
  · exact matchesAt_of_le_length l '<' _ m (by omega)

theorem no_end_occurrence_all (l : List Char) (s : Nat)
    (h : ∀ m, m < l.length → s ≤ m → matchesAt endDelimiter (l.drop m) = false) :
    ∀ m, s ≤ m → matchesAt endDelimiter (l.drop m) = false := by
  intro m hs
  by_cases hm : m < l.length
  · exact h m hm hs
  · exact matchesAt_of_le_length l '-' _ m (by omega)

end Backport

namespace Backport

/-- Claim C3, counterexample: on the spec's example body (with a second
comment block after the word `middle`) the strip operation removes only
the first `<!-- ... -->` comment; the second comment block survives, so
the result is not `beforeafter` as the claim's example asserts. -/
theorem C3_counterexample :
    stripTestPlanFromPRBody "before<!--plan-->middle<!--/plan-->after" =
      "beforemiddle<!--/plan-->after" ∧
    stripTestPlanFromPRBody "before<!--plan-->middle<!--/plan-->after" ≠
      "beforeafter" := by
  constructor
  · decide
  · decide

/-- Claim C3 (amended): the test-plan strip operation removes everything
from the first occurrence of `<!--` through the first following `-->`
inclusive (so the spec's example body, which carries a second comment
block, keeps everything after the first `-->`); a body containing no
`<!--` is returned unchanged; a body containing `<!--` but no subsequent
`-->` is returned unchanged. Occurrences are phrased via `matchesAt` on
the character list of the body; absence hypotheses are bounded by the
body length, which loses nothing for non-empty delimiters. -/
theorem C3_strip_first_comment (body : String) :
    ((∀ m, m < body.toList.length →
        matchesAt startDelimiter (body.toList.drop m) = false) →
      stripTestPlanFromPRBody body = body) ∧
    (∀ i, matchesAt startDelimiter (body.toList.drop i) = true →
      (∀ m, m < i → matchesAt startDelimiter (body.toList.drop m) = false) →
      (∀ m, m < body.toList.length → i + 4 ≤ m →
        matchesAt endDelimiter (body.toList.drop m) = false) →
      stripTestPlanFromPRBody body = body) ∧
    (∀ i j, matchesAt startDelimiter (body.toList.drop i) = true →
      (∀ m, m < i → matchesAt startDelimiter (body.toList.drop m) = false) →
      i + 4 ≤ j → matchesAt endDelimiter (body.toList.drop j) = true →
      (∀ m, i + 4 ≤ m → m < j →
        matchesAt endDelimiter (body.toList.drop m) = false) →
      stripTestPlanFromPRBody body =
        String.mk (body.toList.take i ++ body.toList.drop (j + 3))) ∧
    stripTestPlanFromPRBody "before<!--plan-->middle<!--/plan-->after" =
      "beforemiddle<!--/plan-->after" := by
  refine ⟨?_, ?_, ?_, by decide⟩
  · intro h
    have hall : ∀ m, matchesAt startDelimiter (body.toList.drop m) = false :=
      no_start_occurrence_all body.toList h
    have hnone : indexOfFrom body.toList startDelimiter 0 = none :=
      indexOfFrom_eq_none_of _ _ _ (fun m _ => hall m)
    simp only [stripTestPlanFromPRBody, hnone]
  · intro i hocc hmin hend
    have hsome : indexOfFrom body.toList startDelimiter 0 = some i :=
      indexOfFrom_eq_some_of _ _ _ _ (Nat.zero_le i) hocc
        (fun m _ hm => hmin m hm)
    have hendall : ∀ m, i + 4 ≤ m →
        matchesAt endDelimiter (body.toList.drop m) = false :=
      no_end_occurrence_all body.toList (i + 4)
        (fun m hm hs => hend m hm hs)
    have hnone : indexOfFrom body.toList endDelimiter (i + 4) = none :=
      indexOfFrom_eq_none_of _ _ _ hendall
    simp only [stripTestPlanFromPRBody, hsome, startDelimiter_length, hnone]
  · intro i j hocc hmin hij hocce hmine
    have hsome : indexOfFrom body.toList startDelimiter 0 = some i :=
      indexOfFrom_eq_some_of _ _ _ _ (Nat.zero_le i) hocc
        (fun m _ hm => hmin m hm)
    have hsomee : indexOfFrom body.toList endDelimiter (i + 4) = some j :=
      indexOfFrom_eq_some_of _ _ _ _ hij hocce hmine
    simp only [stripTestPlanFromPRBody, hsome, startDelimiter_length, hsomee,
      endDelimiter_length]

/-- Witness for C3: the general characterization applied at the body
`a<!--b-->c` (first `<!--` at 1, first following `-->` at 6), so the
strip yields the first six characters removed from index 1 to 8. -/
theorem C3_witness :
    stripTestPlanFromPRBody "a<!--b-->c" =
      String.mk (("a<!--b-->c".toList).take 1 ++ ("a<!--b-->c".toList).drop 9) :=
  (C3_strip_first_comment "a<!--b-->c").2.2.1 1 6 (by decide) (by decide)
    (by decide) (by decide) (by decide)

/-- Claim C9: applying the test-plan strip twice yields the same result
as applying it once, provided the once-stripped body contains no further
delimiter pair: either no `<!--` occurs in it, or a first `<!--` occurs
at some `i` with no `-->` at or after `i + 4`. -/
theorem C9_strip_idempotent (body : String)
    (h : (∀ m, m < (stripTestPlanFromPRBody body).toList.length →
            matchesAt startDelimiter
              ((stripTestPlanFromPRBody body).toList.drop m) = false) ∨
         (∃ i, matchesAt startDelimiter
              ((stripTestPlanFromPRBody body).toList.drop i) = true ∧
            (∀ m, m < i → matchesAt startDelimiter
              ((stripTestPlanFromPRBody body).toList.drop m) = false) ∧
            (∀ m, m < (stripTestPlanFromPRBody body).toList.length →
              i + 4 ≤ m → matchesAt endDelimiter
                ((stripTestPlanFromPRBody body).toList.drop m) = false))) :
    stripTestPlanFromPRBody (stripTestPlanFromPRBody body) =
      stripTestPlanFromPRBody body := by
  rcases h with h | ⟨i, hocc, hmin, hend⟩
  · exact (C3_strip_first_comment (stripTestPlanFromPRBody body)).1 h
  · exact (C3_strip_first_comment (stripTestPlanFromPRBody body)).2.1 i
      hocc hmin hend

/-- Witness for C9: the body `x<!--a-->y<!--b` strips to `xy<!--b`,
which still contains a `<!--` but no further `-->`, and a second strip
leaves it unchanged. -/
theorem C9_witness :
    stripTestPlanFromPRBody (stripTestPlanFromPRBody "x<!--a-->y<!--b") =
      stripTestPlanFromPRBody "x<!--a-->y<!--b" :=
  C9_strip_idempotent "x<!--a-->y<!--b"
    (Or.inr ⟨2, by decide, by decide, by decide⟩)

/-! ### Label router (src/backport.ts, `getBaseBranchFromLabel` /
`getBaseBranches`)

A JS `RegExp` without the `g` flag is stateless, so it is modelled as a
pure function from the tested string to the outcome of `exec`:
* `none` — the pattern does not match;
* `some none` — the pattern matches but `result.groups` is `undefined`
  (the pattern has no named capturing groups at all);
* `some (some gs)` — the pattern matches and `result.groups` is the
  object `gs`, an association list from group names to the captured
  text (`none` for a named group that did not participate). -/

abbrev MatchGroups := Option (List (String × Option String))

abbrev Matcher := String → Option MatchGroups

/-- JS property access `gs[name]`: `none` both for an absent key and for
an `undefined` value. -/
def groupValue (gs : List (String × Option String)) (name : String) :
    Option String :=
  match gs.lookup name with
  | none => none
  | some v => v

def configErrorMsg (label : String) : String :=
  "RegExp matched \"" ++ label ++
    "\" but missed a \"base\" named capturing group."

/-- Embedding of `getBaseBranchFromLabel` from `src/backport.ts`:
no match, or a match without a `groups` object, silently yields no base;
a match whose `groups` object has a falsy `base` entry (absent,
`undefined` or the empty string) throws; otherwise the captured base is
returned. -/
def getBaseBranchFromLabel (labelRegExp : Matcher) (label : String) :
    Except String (Option String) :=
  match labelRegExp label with
  | none => .ok none
  | some none => .ok none
  | some (some gs) =>
    match groupValue gs "base" with
    | none => .error (configErrorMsg label)
    | some b => if b = "" then .error (configErrorMsg label) else .ok (some b)

structure LabelObj where
  name : String
  deriving Repr, DecidableEq

structure User where
  login : String
  deriving Repr, DecidableEq

structure PullRequestData where
  body : Option String
  labels : List LabelObj
  merge_commit_sha : Option String
  merged : Bool
  merged_by : Option User
  number : Nat
  title : String
  user : User
  deriving Repr

structure RepositoryData where
  name : String
  owner : User
  clone_url : String
  deriving Repr

/-- A `PullRequestClosedEvent` carries no `label` field; a
`PullRequestLabeledEvent` carries the single newly applied label, so the
JS test `"label" in payload` is `label.isSome`. -/
structure Payload where
  pull_request : PullRequestData
  repository : RepositoryData
  label : Option LabelObj
  deriving Repr

/-- `lodash.compact` over the mapped labels, with the first thrown error
propagating (JS `Array.prototype.map` evaluates left to right). -/
def collectBases (labelRegExp : Matcher) :
    List LabelObj → Except String (List String)
  | [] => .ok []
  | l :: ls =>
    match getBaseBranchFromLabel labelRegExp l.name with
    | .error e => .error e
    | .ok b =>
      match collectBases labelRegExp ls with
      | .error e => .error e
      | .ok rest =>
        .ok (match b with
          | some x => x :: rest
          | none => rest)

/-- Embedding of `getBaseBranches` from `src/backport.ts`. -/
def getBaseBranches (labelRegExp : Matcher) (payload : Payload) :
    Except String (List String) :=
  match payload.label with
  | some lbl =>
    match getBaseBranchFromLabel labelRegExp lbl.name with
    | .error e => .error e
    | .ok (some b) => .ok [b]
    | .ok none => .ok []
  | none => collectBases labelRegExp payload.pull_request.labels

/-- A matcher whose `exec` result claims a match but exposes no named
capturing groups object at all. -/
def matcherNoGroups : Matcher := fun _ => some none

/-- Claim C4, counterexample: the label `backport 1.0` is matched by a
pattern whose match lacks the `base` named capture group (it has no
`groups` object at all), yet the router returns a silent skip
(`ok none`) instead of failing with a configuration error. -/
theorem C4_counterexample :
    getBaseBranchFromLabel matcherNoGroups "backport 1.0" =
      Except.ok none ∧
    getBaseBranchFromLabel matcherNoGroups "backport 1.0" ≠
      Except.error (configErrorMsg "backport 1.0") := by
  constructor
  · rfl
  · decide

/-- Claim C4 (amended): a label the pattern does not match at all
produces no entry and no error; so does a match that exposes no named
capturing groups object at all; a match whose groups object lacks the
`base` entry (or carries an empty capture) fails the run with the
configuration error; a match with a non-empty `base` capture yields that
base. -/
theorem C4_base_group_router (M : Matcher) (label : String) :
    (M label = none → getBaseBranchFromLabel M label = Except.ok none) ∧
    (M label = some none → getBaseBranchFromLabel M label = Except.ok none) ∧
    (∀ gs, M label = some (some gs) →
      (groupValue gs "base" = none ∨ groupValue gs "base" = some "") →
      getBaseBranchFromLabel M label =
        Except.error (configErrorMsg label)) ∧
    (∀ gs b, M label = some (some gs) → groupValue gs "base" = some b →
      b ≠ "" → getBaseBranchFromLabel M label = Except.ok (some b)) := by
  refine ⟨?_, ?_, ?_, ?_⟩
  · intro h
    simp only [getBaseBranchFromLabel, h]
  · intro h
    simp only [getBaseBranchFromLabel, h]
  · intro gs h hb
    rcases hb with hb | hb
    · simp only [getBaseBranchFromLabel, h, hb]
    · simp [getBaseBranchFromLabel, h, hb]
  · intro gs b h hb hne
    simp only [getBaseBranchFromLabel, h, hb, if_neg hne]

/-- Witness for C4 (amended): a matcher carrying a `groups` object whose
only entry is `other` triggers the configuration error on `lbl`. -/
theorem C4_witness :
    getBaseBranchFromLabel (fun _ => some (some [("other", some "x")]))
      "lbl" = Except.error (configErrorMsg "lbl") :=
  (C4_base_group_router (fun _ => some (some [("other", some "x")]))
    "lbl").2.2.1 [("other", some "x")] rfl (Or.inl rfl)

/-- Concrete matcher modelling the pattern of the spec's example: it
matches any label containing `base:` and captures everything after the
first `base:` as the `base` named group. -/
def baseColonMatcher : Matcher := fun label =>
  match indexOfFrom label.toList ("base:".toList) 0 with
  | none => none
  | some i => some (some [("base", some (String.mk (label.toList.drop (i + 5))))])

/-- The value routed for one label, when no error occurs. -/
def routedOf (M : Matcher) (l : LabelObj) : Option String :=
  match getBaseBranchFromLabel M l.name with
  | .ok b => b
  | .error _ => none

theorem collectBases_clean (M : Matcher) :
    ∀ ls : List LabelObj,
      (∀ l ∈ ls, ∃ b, getBaseBranchFromLabel M l.name = .ok b) →
      collectBases M ls = .ok (ls.filterMap (routedOf M)) := by
  intro ls
  induction ls with
  | nil => intro _; rfl
  | cons l ls ih =>
    intro h
    rcases h l (List.mem_cons_self l ls) with ⟨b, hb⟩
    have ihls := ih (fun x hx => h x (List.mem_cons_of_mem l hx))
    cases b with
    | none =>
      simp only [collectBases, hb, ihls, List.filterMap_cons]
      simp [routedOf, hb]
    | some x =>
      simp only [collectBases, hb, ihls, List.filterMap_cons]
      simp [routedOf, hb]

/-- Claim C7: for a "closed" event the router tests every label on the
pull request and returns, in label order, the `base` capture of each
matching label; labels that fail to match produce no entry and are
silently skipped (provided no label triggers the configuration error);
in particular labels `backport base:5.3`, `backport base:5.4`, `team/x`
with the `base:`-capturing pattern yield `["5.3", "5.4"]`. -/
theorem C7_closed_event_routing (M : Matcher) (pr : PullRequestData)
    (repo : RepositoryData)
    (h : ∀ l ∈ pr.labels, ∃ b, getBaseBranchFromLabel M l.name = .ok b) :
    getBaseBranches M
        { pull_request := pr, repository := repo, label := none } =
      .ok (pr.labels.filterMap (routedOf M)) ∧
    getBaseBranches baseColonMatcher
        { pull_request :=
            { body := none
            , labels := [⟨"backport base:5.3"⟩, ⟨"backport base:5.4"⟩,
                ⟨"team/x"⟩]
            , merge_commit_sha := some "abc123"
            , merged := true
            , merged_by := none
            , number := 42
            , title := "t"
            , user := ⟨"alice"⟩ }
        , repository := { name := "r", owner := ⟨"o"⟩, clone_url := "u" }
        , label := none } =
      .ok ["5.3", "5.4"] := by
  constructor
  · exact collectBases_clean M pr.labels h
  · decide

/-- Witness for C7: the general clause applied to the example payload
itself, whose three labels all route cleanly. -/
theorem C7_witness :
    getBaseBranches baseColonMatcher
        { pull_request :=
            { body := none
            , labels := [⟨"backport base:5.3"⟩, ⟨"backport base:5.4"⟩,
                ⟨"team/x"⟩]
            , merge_commit_sha := some "abc123"
            , merged := true
            , merged_by := none
            , number := 42
            , title := "t"
            , user := ⟨"alice"⟩ }
        , repository := { name := "r", owner := ⟨"o"⟩, clone_url := "u" }
        , label := none } =
      .ok ([⟨"backport base:5.3"⟩, ⟨"backport base:5.4"⟩,
        (⟨"team/x"⟩ : LabelObj)].filterMap (routedOf baseColonMatcher)) :=
  (C7_closed_event_routing baseColonMatcher
    { body := none
    , labels := [⟨"backport base:5.3"⟩, ⟨"backport base:5.4"⟩, ⟨"team/x"⟩]
    , merge_commit_sha := some "abc123"
    , merged := true
    , merged_by := none
    , number := 42
    , title := "t"
    , user := ⟨"alice"⟩ }
    { name := "r", owner := ⟨"o"⟩, clone_url := "u" }
    (by
      intro l hl
      fin_cases hl
      · exact ⟨some "5.3", by decide⟩
      · exact ⟨some "5.4", by decide⟩
      · exact ⟨none, by decide⟩)).1

/-! ### Effects and environment

Every `git` invocation and every REST request of `src/backport.ts` is an
`Effect`.  An `Env` is an oracle for the external world: it decides
whether each issued effect succeeds or raises, and which pull-request
number a successful creation returns.  The embedded functions return the
ordered list of issued effects (issued means the command/request was
sent, whether or not it then failed) together with the outcome. -/

inductive Effect where
  | gitClone
  | gitConfigEmail
  | gitConfigName
  | gitSwitch (base : String)
  | gitSwitchCreate (head : String)
  | gitCherryPick (commitSha : String)
  | gitCherryPickAbort
  | gitPush (head : String)
  | apiGetRepo (owner repo : String)
  | apiCreatePull (base head title body : String)
  | apiRequestReviewers (pull : Nat) (reviewers teams : List String)
  | apiSetLabels (issue : Nat) (labels : List String)
  | apiCreateComment (issue : Nat) (body : String)
  | apiAddLabels (issue : Nat) (labels : List String)
  deriving Repr, DecidableEq

structure Env where
  run : Effect → Except String Unit
  createPullNumber : String → String → Nat

/-- Argument record of `backportOnce` (src/backport.ts). -/
structure OnceArgs where
  author : String
  base : String
  body : String
  commitSha : String
  head : String
  labels : List String
  merged_by : String
  owner : String
  repo : String
  teamReviews : String
  title : String
  deriving Repr

/-- Embedding of `backportOnce` from `src/backport.ts`: switch to the
base branch, create the head branch, cherry-pick the merge commit
(aborting the cherry-pick and rethrowing on failure), push, create the
pull request, request reviewers, and apply the labels when the label
list is non-empty. -/
def backportOnce (env : Env) (a : OnceArgs) : List Effect × Except String Nat :=
  match env.run (Effect.gitSwitch a.base) with
  | .error e => ([Effect.gitSwitch a.base], .error e)
  | .ok _ =>
    match env.run (Effect.gitSwitchCreate a.head) with
    | .error e =>
      ([Effect.gitSwitch a.base, Effect.gitSwitchCreate a.head], .error e)
    | .ok _ =>
      match env.run (Effect.gitCherryPick a.commitSha) with
      | .error e =>
        match env.run Effect.gitCherryPickAbort with
        | .error e2 =>
          ([Effect.gitSwitch a.base, Effect.gitSwitchCreate a.head,
            Effect.gitCherryPick a.commitSha, Effect.gitCherryPickAbort],
           .error e2)
        | .ok _ =>
          ([Effect.gitSwitch a.base, Effect.gitSwitchCreate a.head,
            Effect.gitCherryPick a.commitSha, Effect.gitCherryPickAbort],
           .error e)
      | .ok _ =>
        match env.run (Effect.gitPush a.head) with
        | .error e =>
          ([Effect.gitSwitch a.base, Effect.gitSwitchCreate a.head,
            Effect.gitCherryPick a.commitSha, Effect.gitPush a.head],
           .error e)
        | .ok _ =>
          match env.run (Effect.apiCreatePull a.base a.head a.title a.body) with
          | .error e =>
            ([Effect.gitSwitch a.base, Effect.gitSwitchCreate a.head,
              Effect.gitCherryPick a.commitSha, Effect.gitPush a.head,
              Effect.apiCreatePull a.base a.head a.title a.body],
             .error e)
          | .ok _ =>
            let number := env.createPullNumber a.base a.head
            let reviewers :=
              if a.author ≠ a.merged_by ∧ a.merged_by ≠ "" then
                [a.author, a.merged_by]
              else [a.author]
            let teams := if a.teamReviews ≠ "" then [a.teamReviews] else []
            match env.run (Effect.apiRequestReviewers number reviewers teams) with
            | .error e =>
              ([Effect.gitSwitch a.base, Effect.gitSwitchCreate a.head,
                Effect.gitCherryPick a.commitSha, Effect.gitPush a.head,
                Effect.apiCreatePull a.base a.head a.title a.body,
                Effect.apiRequestReviewers number reviewers teams],
               .error e)
            | .ok _ =>
              if a.labels.length > 0 then
                match env.run (Effect.apiSetLabels number a.labels) with
                | .error e =>
                  ([Effect.gitSwitch a.base, Effect.gitSwitchCreate a.head,
                    Effect.gitCherryPick a.commitSha, Effect.gitPush a.head,
                    Effect.apiCreatePull a.base a.head a.title a.body,
                    Effect.apiRequestReviewers number reviewers teams,
                    Effect.apiSetLabels number a.labels],
                   .error e)
                | .ok _ =>
                  ([Effect.gitSwitch a.base, Effect.gitSwitchCreate a.head,
                    Effect.gitCherryPick a.commitSha, Effect.gitPush a.head,
                    Effect.apiCreatePull a.base a.head a.title a.body,
                    Effect.apiRequestReviewers number reviewers teams,
                    Effect.apiSetLabels number a.labels],
                   .ok number)
              else
                ([Effect.gitSwitch a.base, Effect.gitSwitchCreate a.head,
                  Effect.gitCherryPick a.commitSha, Effect.gitPush a.head,
                  Effect.apiCreatePull a.base a.head a.title a.body,
                  Effect.apiRequestReviewers number reviewers teams],
                 .ok number)

/-- Embedding of `getFailedBackportCommentBody` from `src/backport.ts`
(the manual-remediation comment template). -/
def getFailedBackportCommentBody (base commitSha errorMessage head : String)
    (prNumber : Nat) (runUrl : String) : String :=
  let worktreePath := ".worktrees/backport-" ++ base
  "The backport to `" ++ base ++ "` failed at " ++ runUrl ++ ":\n" ++
  "```\n" ++ errorMessage ++ "\n```\n\n" ++
  "To backport this PR manually, you can either:\n\n" ++
  "<details>\n<summary>Via the sg tool</summary>\n\n" ++
  "Use the `sg backport` command to backport your commit to the release branch.\n\n" ++
  "```bash\nsg backport -r " ++ base ++ " -p " ++ toString prNumber ++
  "\n```\n</details>\n\n" ++
  "<details>\n<summary>\nVia your terminal\n</summary>\n\n" ++
  "To backport manually, run these commands in your terminal:\n\n" ++
  "```bash\n# Fetch latest updates from GitHub\ngit fetch\n" ++
  "# Create a new working tree\ngit worktree add " ++ worktreePath ++ " " ++
  base ++ "\n# Navigate to the new working tree\ncd " ++ worktreePath ++
  "\n# Create a new branch\ngit switch --create " ++ head ++
  "\n# Cherry-pick the merged commit of this pull request and resolve the conflicts\n" ++
  "git cherry-pick -x --mainline 1 " ++ commitSha ++
  "\n# Push it to GitHub\ngit push --set-upstream origin " ++ head ++
  "\n# Go back to the original working tree\ncd ../..\n" ++
  "# Delete the working tree\ngit worktree remove " ++ worktreePath ++
  "\n```\n\n" ++
  "If you encouter conflict, first resolve the conflict and stage all files, then run the commands below:\n" ++
  "```bash\ngit cherry-pick --continue\n" ++
  "# Push it to GitHub\ngit push --set-upstream origin " ++ head ++
  "\n# Go back to the original working tree\ncd ../..\n" ++
  "# Delete the working tree\ngit worktree remove " ++ worktreePath ++
  "\n```\n\n" ++
  "- [ ] Follow above instructions to backport the commit.\n" ++
  "- [ ] Create a pull request where the `base` branch is `" ++ base ++
  "` and the `compare`/`head` branch is `" ++ head ++
  "`., [click here to create the pull request](https://github.com/sourcegraph/sourcegraph/compare/" ++
  base ++ "..." ++ head ++ "?expand=1).\n</details>\n\n" ++
  "Once the pull request has been created, please ensure the following:\n\n" ++
  "- [ ] Make sure to tag `@sourcegraph/release` in the pull request description.\n\n" ++
  "- [ ] kindly remove the `release-blocker` from this pull request.\n"

/-! ### The orchestrator (src/backport.ts, `backport`) -/

/-- Argument record of `backport` (the three template callbacks are the
caller-supplied pure string templates). -/
structure BackportArgs where
  getBody : String → String → String → Nat → String
  getHead : String → Nat → String
  getTitle : String → Nat → String → String
  labelRegExp : Matcher
  payload : Payload
  runId : Nat
  serverUrl : String
  teamReviews : String
  token : String

/-- The fields `backport` destructures from the payload. -/
structure RunCtx where
  author : String
  mergeCommitSha : String
  merged_by : String
  originalBody : Option String
  originalLabels : List LabelObj
  originalTitle : String
  owner : String
  prNumber : Nat
  repo : String
  deriving Repr

def mkCtx (A : BackportArgs) : RunCtx :=
  { author := A.payload.pull_request.user.login
  , mergeCommitSha := (A.payload.pull_request.merge_commit_sha).getD ""
  , merged_by :=
      match A.payload.pull_request.merged_by with
      | some u => u.login
      | none => ""
  , originalBody := A.payload.pull_request.body
  , originalLabels := A.payload.pull_request.labels
  , originalTitle := A.payload.pull_request.title
  , owner := A.payload.repository.owner.login
  , prNumber := A.payload.pull_request.number
  , repo := A.payload.repository.name }

/-- JS falsiness of `merge_commit_sha : string | null`. -/
def shaFalsy : Option String → Bool
  | none => true
  | some s => s = ""

def securityErrorMsg : String :=
  "For security reasons, this action should only run on merged PRs."

/-- Per-target body: `originalBody ? stripTestPlanFromPRBody(originalBody) : \"\"`. -/
def targetBody (A : BackportArgs) (c : RunCtx) (base : String) : String :=
  A.getBody base
    (match c.originalBody with
      | none => ""
      | some b => if b = "" then "" else stripTestPlanFromPRBody b)
    c.mergeCommitSha c.prNumber

def targetHead (A : BackportArgs) (c : RunCtx) (base : String) : String :=
  A.getHead base c.prNumber

/-- Per-target labels: original labels not matching the pattern, plus
the two generated labels. -/
def targetLabels (A : BackportArgs) (c : RunCtx) (base : String) :
    List String :=
  ((c.originalLabels.map LabelObj.name).filter
      (fun l => !(A.labelRegExp l).isSome)) ++
    ["backports", "backported-to-" ++ base]

def targetTitle (A : BackportArgs) (c : RunCtx) (base : String) : String :=
  A.getTitle base c.prNumber c.originalTitle

def runUrlOf (A : BackportArgs) (c : RunCtx) : String :=
  A.serverUrl ++ "/" ++ c.owner ++ "/" ++ c.repo ++ "/actions/runs/" ++
    toString A.runId

def onceArgs (A : BackportArgs) (c : RunCtx) (base : String) : OnceArgs :=
  { author := c.author
  , base := base
  , body := targetBody A c base
  , commitSha := c.mergeCommitSha
  , head := targetHead A c base
  , labels := targetLabels A c base
  , merged_by := c.merged_by
  , owner := c.owner
  , repo := c.repo
  , teamReviews := A.teamReviews
  , title := targetTitle A c base }

/-- Labels applied to the source pull request after a failed target. -/
def failedLabels (base : String) : List String :=
  ["backports", "release-blocker", "failed-backport-to-" ++ base]

def commentEffect (A : BackportArgs) (c : RunCtx) (base errMsg : String) :
    Effect :=
  Effect.apiCreateComment c.prNumber
    (getFailedBackportCommentBody base c.mergeCommitSha errMsg
      (targetHead A c base) c.prNumber (runUrlOf A c))

def failedLabelsEffect (c : RunCtx) (base : String) : Effect :=
  Effect.apiAddLabels c.prNumber (failedLabels base)

/-- One iteration of the `for (const base of baseBranches)` loop:
run `backportOnce`; on success report the created number; on failure
post the remediation comment and apply the failure labels — each of
which can itself raise, in which case that error escapes the iteration
(the `catch` block does not guard its own awaits). -/
def processTarget (env : Env) (A : BackportArgs) (c : RunCtx)
    (base : String) : List Effect × Except String (Option Nat) :=
  match backportOnce env (onceArgs A c base) with
  | (tr, .ok n) => (tr, .ok (some n))
  | (tr, .error e) =>
    match env.run (commentEffect A c base e) with
    | .error e2 => (tr ++ [commentEffect A c base e], .error e2)
    | .ok _ =>
      match env.run (failedLabelsEffect c base) with
      | .error e3 =>
        (tr ++ [commentEffect A c base e, failedLabelsEffect c base],
         .error e3)
      | .ok _ =>
        (tr ++ [commentEffect A c base e, failedLabelsEffect c base],
         .ok none)

/-- JS object property assignment `m[k] = v`: overwrite in place when
the key exists, append otherwise. -/
def insertResult (m : List (String × Nat)) (k : String) (v : Nat) :
    List (String × Nat) :=
  if m.any (fun p => p.1 == k) then
    m.map (fun p => if p.1 == k then (k, v) else p)
  else m ++ [(k, v)]

def keysOf (m : List (String × Nat)) : List String := m.map Prod.fst

/-- The target loop of `backport`, accumulating the result map. -/
def backportLoop (env : Env) (A : BackportArgs) (c : RunCtx) :
    List String → List (String × Nat) →
      List Effect × Except String (List (String × Nat))
  | [], acc => ([], .ok acc)
  | base :: rest, acc =>
    match processTarget env A c base with
    | (tr, .error e) => (tr, .error e)
    | (tr, .ok (some n)) =>
      let r := backportLoop env A c rest (insertResult acc base n)
      (tr ++ r.1, r.2)
    | (tr, .ok none) =>
      let r := backportLoop env A c rest acc
      (tr ++ r.1, r.2)

/-- Embedding of `backport` from `src/backport.ts`: enforce the
security precondition before anything else, route the base branches
(a routing error is fatal), return the empty map when no target is
routed, then query the repository settings, clone, set the committer
identity, and run the per-target loop. -/
def backport (env : Env) (A : BackportArgs) :
    List Effect × Except String (List (String × Nat)) :=
  let pr := A.payload.pull_request
  if !pr.merged || shaFalsy pr.merge_commit_sha then
    ([], .error securityErrorMsg)
  else
    match getBaseBranches A.labelRegExp A.payload with
    | .error e => ([], .error e)
    | .ok baseBranches =>
      if baseBranches.isEmpty then ([], .ok [])
      else
        let c := mkCtx A
        match env.run (Effect.apiGetRepo c.owner c.repo) with
        | .error e => ([Effect.apiGetRepo c.owner c.repo], .error e)
        | .ok _ =>
          match env.run Effect.gitClone with
          | .error e =>
            ([Effect.apiGetRepo c.owner c.repo, Effect.gitClone], .error e)
          | .ok _ =>
            match env.run Effect.gitConfigEmail with
            | .error e =>
              ([Effect.apiGetRepo c.owner c.repo, Effect.gitClone,
                Effect.gitConfigEmail], .error e)
            | .ok _ =>
              match env.run Effect.gitConfigName with
              | .error e =>
                ([Effect.apiGetRepo c.owner c.repo, Effect.gitClone,
                  Effect.gitConfigEmail, Effect.gitConfigName], .error e)
              | .ok _ =>
                let r := backportLoop env A c baseBranches []
                ([Effect.apiGetRepo c.owner c.repo, Effect.gitClone,
                  Effect.gitConfigEmail, Effect.gitConfigName] ++ r.1,
                 r.2)

/-! ### Claims about the orchestrator -/

/-- Claim C1: whenever the merged flag is not true, or the merge commit
identifier is empty or absent, `backport` raises the security
precondition error with an empty effect trace — no network request or
version-control command is issued and no partial result map exists. -/
theorem C1_security_precondition (env : Env) (A : BackportArgs)
    (h : A.payload.pull_request.merged = false ∨
         A.payload.pull_request.merge_commit_sha = none ∨
         A.payload.pull_request.merge_commit_sha = some "") :
    backport env A = ([], Except.error securityErrorMsg) := by
  rcases h with h | h | h <;> simp [backport, shaFalsy, h]

def envAllOk : Env :=
  { run := fun _ => .ok (), createPullNumber := fun _ _ => 123 }

def sampleRepo : RepositoryData :=
  { name := "repo", owner := ⟨"org"⟩, clone_url := "https://example.com/repo.git" }

def samplePayload (merged : Bool) (sha : Option String)
    (labels : List LabelObj) : Payload :=
  { pull_request :=
      { body := none
      , labels := labels
      , merge_commit_sha := sha
      , merged := merged
      , merged_by := some ⟨"bob"⟩
      , number := 42
      , title := "Fix bug"
      , user := ⟨"alice"⟩ }
  , repository := sampleRepo
  , label := none }

def sampleArgs (payload : Payload) : BackportArgs :=
  { getBody := fun base _ sha n =>
      "backport " ++ sha ++ " of PR " ++ toString n ++ " to " ++ base
  , getHead := fun base n => "backport-" ++ toString n ++ "-to-" ++ base
  , getTitle := fun base _ t => "[" ++ base ++ "] " ++ t
  , labelRegExp := baseColonMatcher
  , payload := payload
  , runId := 7
  , serverUrl := "https://github.com"
  , teamReviews := ""
  , token := "tok" }

/-- Witness for C1: an unmerged payload is rejected with no effects. -/
theorem C1_witness :
    backport envAllOk
        (sampleArgs (samplePayload false (some "abc123")
          [⟨"backport base:release-1.0"⟩])) =
      ([], Except.error securityErrorMsg) :=
  C1_security_precondition envAllOk
    (sampleArgs (samplePayload false (some "abc123")
      [⟨"backport base:release-1.0"⟩])) (Or.inl rfl)

/-- Claim C8: whenever switching and branch creation succeed and the
cherry-pick command fails, `backportOnce` issues the cherry-pick abort
immediately after the failed cherry-pick — before the failure propagates
— and issues nothing further (no push, no publish). -/
theorem C8_cherry_pick_abort (env : Env) (a : OnceArgs) (e : String)
    (h1 : env.run (Effect.gitSwitch a.base) = .ok ())
    (h2 : env.run (Effect.gitSwitchCreate a.head) = .ok ())
    (h3 : env.run (Effect.gitCherryPick a.commitSha) = .error e) :
    (backportOnce env a).1 =
      [Effect.gitSwitch a.base, Effect.gitSwitchCreate a.head,
        Effect.gitCherryPick a.commitSha, Effect.gitCherryPickAbort] ∧
    ∃ msg, (backportOnce env a).2 = Except.error msg := by
  cases habort : env.run Effect.gitCherryPickAbort with
  | error e2 =>
    constructor
    · simp [backportOnce, h1, h2, h3, habort]
    · exact ⟨e2, by simp [backportOnce, h1, h2, h3, habort]⟩
  | ok v =>
    constructor
    · simp [backportOnce, h1, h2, h3, habort]
    · exact ⟨e, by simp [backportOnce, h1, h2, h3, habort]⟩

def envCherryFail : Env :=
  { run := fun e =>
      match e with
      | Effect.gitCherryPick _ => .error "conflict"
      | _ => .ok ()
  , createPullNumber := fun _ _ => 123 }

def sampleOnceArgs : OnceArgs :=
  { author := "alice"
  , base := "release-1.0"
  , body := "b"
  , commitSha := "abc123"
  , head := "backport-42-to-release-1.0"
  , labels := ["backports"]
  , merged_by := "bob"
  , owner := "org"
  , repo := "repo"
  , teamReviews := ""
  , title := "t" }

/-- Witness for C8: against an environment whose cherry-pick conflicts,
the abort is issued and the failure propagates. -/
theorem C8_witness :
    (backportOnce envCherryFail sampleOnceArgs).1 =
      [Effect.gitSwitch sampleOnceArgs.base,
        Effect.gitSwitchCreate sampleOnceArgs.head,
        Effect.gitCherryPick sampleOnceArgs.commitSha,
        Effect.gitCherryPickAbort] ∧
    ∃ msg, (backportOnce envCherryFail sampleOnceArgs).2 =
      Except.error msg :=
  C8_cherry_pick_abort envCherryFail sampleOnceArgs "conflict" rfl rfl rfl

/-- Claim C10: the per-target label list always contains the two
generated labels `backports` and `backported-to-<base>` and is never
empty, so whenever `backportOnce` succeeds the label-application call
was actually issued on the created pull request. -/
theorem C10_labels_always_applied (env : Env) (A : BackportArgs)
    (c : RunCtx) (base : String) (tr : List Effect) (n : Nat)
    (h : backportOnce env (onceArgs A c base) = (tr, Except.ok n)) :
    targetLabels A c base ≠ [] ∧
    "backports" ∈ targetLabels A c base ∧
    ("backported-to-" ++ base) ∈ targetLabels A c base ∧
    Effect.apiSetLabels n (targetLabels A c base) ∈ tr := by
  have hlab : targetLabels A c base ≠ [] := by simp [targetLabels]
  refine ⟨hlab, by simp [targetLabels], by simp [targetLabels], ?_⟩
  have hlen : (onceArgs A c base).labels.length > 0 := by
    have : (onceArgs A c base).labels = targetLabels A c base := rfl
    rw [this]
    cases hcase : targetLabels A c base with
    | nil => exact absurd hcase hlab
    | cons x xs => simp
  simp only [backportOnce] at h
  split at h
  · simp at h
  · split at h
    · simp at h
    · split at h
      · split at h
        · simp at h
        · simp at h
      · split at h
        · simp at h
        · split at h
          · simp at h
          · split at h
            · simp at h
            · split at h
              · split at h
                · simp at h
                · simp only [Prod.mk.injEq] at h
                  obtain ⟨htr, hn⟩ := h
                  rw [← htr]
                  have hn' : env.createPullNumber (onceArgs A c base).base
                      (onceArgs A c base).head = n := by
                    injection hn
                  rw [← hn']
                  simp [onceArgs]
              · exact absurd hlen (by simpa using ‹¬(onceArgs A c base).labels.length > 0›)

theorem mem_insertResult (acc : List (String × Nat)) (k : String) (v : Nat)
    (p : String × Nat) (hp : p ∈ insertResult acc k v) :
    p ∈ acc ∨ p = (k, v) := by
  unfold insertResult at hp
  split at hp
  · rcases List.mem_map.mp hp with ⟨q, hq, hfq⟩
    by_cases hz : q.1 == k
    · right
      rw [if_pos hz] at hfq
      exact hfq.symm
    · left
      rw [if_neg hz] at hfq
      rw [← hfq]
      exact hq
  · rcases List.mem_append.mp hp with h | h
    · exact Or.inl h
    · exact Or.inr (List.mem_singleton.mp h)

theorem keysOf_insertResult_mono (acc : List (String × Nat)) (k : String)
    (v : Nat) (x : String) (hx : x ∈ keysOf acc) :
    x ∈ keysOf (insertResult acc k v) := by
  rcases List.mem_map.mp hx with ⟨q, hq, hqx⟩
  unfold insertResult keysOf
  split
  · rw [List.map_map]
    apply List.mem_map.mpr
    refine ⟨q, hq, ?_⟩
    by_cases hz : q.1 == k
    · simp only [Function.comp_apply, if_pos hz]
      have : q.1 = k := by simpa using hz
      rw [← hqx, this]
    · simp only [Function.comp_apply, if_neg hz]
      exact hqx
  · rw [List.map_append]
    exact List.mem_append.mpr (Or.inl (List.mem_map.mpr ⟨q, hq, hqx⟩))

theorem self_mem_keysOf_insertResult (acc : List (String × Nat)) (k : String)
    (v : Nat) : k ∈ keysOf (insertResult acc k v) := by
  unfold insertResult keysOf
  split
  · rename_i hany
    rcases List.any_eq_true.mp hany with ⟨q, hq, hqk⟩
    rw [List.map_map]
    apply List.mem_map.mpr
    refine ⟨q, hq, ?_⟩
    simp only [Function.comp_apply, if_pos hqk]
  · rw [List.map_append]
    exact List.mem_append.mpr (Or.inr (by simp))

theorem processTarget_ok_some (env : Env) (A : BackportArgs) (c : RunCtx)
    (base : String) (tr : List Effect) (n : Nat)
    (h : processTarget env A c base = (tr, Except.ok (some n))) :
    (backportOnce env (onceArgs A c base)).2 = Except.ok n := by
  unfold processTarget at h
  split at h
  · rename_i trB nB heq
    simp only [Prod.mk.injEq] at h
    obtain ⟨-, hres⟩ := h
    have : nB = n := by
      injection hres with hres'
      injection hres'
    rw [heq]
    rw [this]
  · rename_i trB e heq
    split at h
    · simp at h
    · split at h
      · simp at h
      · simp at h

theorem processTarget_ok_none (env : Env) (A : BackportArgs) (c : RunCtx)
    (base : String) (tr : List Effect)
    (h : processTarget env A c base = (tr, Except.ok none)) :
    (∃ e, (backportOnce env (onceArgs A c base)).2 = Except.error e) ∧
    (∃ s, Effect.apiCreateComment c.prNumber s ∈ tr) ∧
    Effect.apiAddLabels c.prNumber (failedLabels base) ∈ tr := by
  unfold processTarget at h
  split at h
  · simp at h
  · rename_i trB e heq
    split at h
    · simp at h
    · split at h
      · simp at h
      · simp only [Prod.mk.injEq] at h
        obtain ⟨htr, -⟩ := h
        refine ⟨⟨e, by rw [heq]⟩, ?_, ?_⟩
        · refine ⟨getFailedBackportCommentBody base c.mergeCommitSha e
            (targetHead A c base) c.prNumber (runUrlOf A c), ?_⟩
          rw [← htr]
          simp [commentEffect]
        · rw [← htr]
          simp [failedLabelsEffect]

theorem backportLoop_ok (env : Env) (A : BackportArgs) (c : RunCtx) :
    ∀ (bases : List String) (acc m : List (String × Nat)),
      (backportLoop env A c bases acc).2 = Except.ok m →
      (∀ p ∈ m, p ∈ acc ∨
        (p.1 ∈ bases ∧
          (backportOnce env (onceArgs A c p.1)).2 = Except.ok p.2)) ∧
      (∀ x ∈ keysOf acc, x ∈ keysOf m) ∧
      (∀ b ∈ bases, b ∉ keysOf m →
        (∃ s, Effect.apiCreateComment c.prNumber s ∈
          (backportLoop env A c bases acc).1) ∧
        Effect.apiAddLabels c.prNumber (failedLabels b) ∈
          (backportLoop env A c bases acc).1) := by
  intro bases
  induction bases with
  | nil =>
    intro acc m h
    simp only [backportLoop] at h ⊢
    injection h with h
    subst h
    exact ⟨fun p hp => Or.inl hp, fun x hx => hx, fun b hb => absurd hb (by simp)⟩
  | cons base rest ih =>
    intro acc m h
    rcases hP : processTarget env A c base with ⟨trP, resP⟩
    cases resP with
    | error e =>
      rw [backportLoop, hP] at h
      simp at h
    | ok o =>
      cases o with
      | some n =>
        rw [backportLoop, hP] at h
        simp only at h
        obtain ⟨ih1, ih2, ih3⟩ := ih (insertResult acc base n) m h
        refine ⟨?_, ?_, ?_⟩
        · intro p hp
          rcases ih1 p hp with hmem | ⟨hin, hok⟩
          · rcases mem_insertResult acc base n p hmem with hacc | hkv
            · exact Or.inl hacc
            · right
              refine ⟨by rw [hkv]; exact List.mem_cons_self base rest, ?_⟩
              have := processTarget_ok_some env A c base trP n hP
              rw [hkv]
              exact this
          · exact Or.inr ⟨List.mem_cons_of_mem base hin, hok⟩
        · intro x hx
          exact ih2 x (keysOf_insertResult_mono acc base n x hx)
        · intro b hb hbm
          rw [backportLoop, hP]
          simp only
          rcases List.mem_cons.mp hb with rfl | hbr
          · exact absurd (ih2 b (self_mem_keysOf_insertResult acc b n)) hbm
          · obtain ⟨⟨s, hs⟩, hl⟩ := ih3 b hbr hbm
            exact ⟨⟨s, List.mem_append_right _ hs⟩, List.mem_append_right _ hl⟩
      | none =>
        rw [backportLoop, hP] at h
        simp only at h
        obtain ⟨ih1, ih2, ih3⟩ := ih acc m h
        refine ⟨?_, ?_, ?_⟩
        · intro p hp
          rcases ih1 p hp with hmem | ⟨hin, hok⟩
          · exact Or.inl hmem
          · exact Or.inr ⟨List.mem_cons_of_mem base hin, hok⟩
        · exact ih2
        · intro b hb hbm
          rw [backportLoop, hP]
          simp only
          rcases List.mem_cons.mp hb with rfl | hbr
          · obtain ⟨-, ⟨s, hs⟩, hl⟩ := processTarget_ok_none env A c b trP hP
            exact ⟨⟨s, List.mem_append_left _ hs⟩, List.mem_append_left _ hl⟩
          · obtain ⟨⟨s, hs⟩, hl⟩ := ih3 b hbr hbm
            exact ⟨⟨s, List.mem_append_right _ hs⟩, List.mem_append_right _ hl⟩

/-- Claim C5: for every run that returns normally, the key set of the
result map is a subset of the routed base-branch list and contains only
targets whose `backportOnce` succeeded (each key mapped to the created
pull-request number); every routed base branch missing from the map has
a posted failure comment and the failure labels on the source pull
request in the run's effect trace. -/
theorem C5_result_map_invariant (env : Env) (A : BackportArgs)
    (bs : List String) (m : List (String × Nat))
    (hbs : getBaseBranches A.labelRegExp A.payload = Except.ok bs)
    (hrun : (backport env A).2 = Except.ok m) :
    (∀ k ∈ keysOf m, k ∈ bs) ∧
    (∀ p ∈ m,
      (backportOnce env (onceArgs A (mkCtx A) p.1)).2 = Except.ok p.2) ∧
    (∀ b ∈ bs, b ∉ keysOf m →
      (∃ s, Effect.apiCreateComment (mkCtx A).prNumber s ∈
        (backport env A).1) ∧
      Effect.apiAddLabels (mkCtx A).prNumber (failedLabels b) ∈
        (backport env A).1) := by
  cases hsec : (!A.payload.pull_request.merged ||
      shaFalsy A.payload.pull_request.merge_commit_sha) with
  | true =>
    simp only [backport, hsec] at hrun
    simp at hrun
  | false =>
    cases hemp : bs.isEmpty with
    | true =>
      have hbsnil : bs = [] := by
        cases bs with
        | nil => rfl
        | cons x xs => simp [List.isEmpty] at hemp
      simp only [backport, hsec, hbs, hemp] at hrun
      simp only [Bool.false_eq_true, if_false, if_true] at hrun
      have hm : m = [] := by
        injection hrun with h'
        exact h'.symm
      subst hm
      subst hbsnil
      exact ⟨by simp [keysOf], by simp, by simp⟩
    | false =>
      cases h1 : env.run (Effect.apiGetRepo (mkCtx A).owner (mkCtx A).repo) with
      | error e =>
        simp only [backport, hsec, hbs, hemp, h1] at hrun
        simp at hrun
      | ok v1 =>
        cases h2 : env.run Effect.gitClone with
        | error e =>
          simp only [backport, hsec, hbs, hemp, h1, h2] at hrun
          simp at hrun
        | ok v2 =>
          cases h3 : env.run Effect.gitConfigEmail with
          | error e =>
            simp only [backport, hsec, hbs, hemp, h1, h2, h3] at hrun
            simp at hrun
          | ok v3 =>
            cases h4 : env.run Effect.gitConfigName with
            | error e =>
              simp only [backport, hsec, hbs, hemp, h1, h2, h3, h4] at hrun
              simp at hrun
            | ok v4 =>
              simp only [backport, hsec, hbs, hemp, h1, h2, h3, h4] at hrun ⊢
              simp only [Bool.false_eq_true, if_false] at hrun ⊢
              obtain ⟨ih1, -, ih3⟩ :=
                backportLoop_ok env A (mkCtx A) bs [] m hrun
              refine ⟨?_, ?_, ?_⟩
              · intro k hk
                rcases List.mem_map.mp hk with ⟨p, hp, hpk⟩
                rcases ih1 p hp with hnil | ⟨hin, -⟩
                · exact absurd hnil (List.not_mem_nil p)
                · rw [← hpk]; exact hin
              · intro p hp
                rcases ih1 p hp with hnil | ⟨-, hok⟩
                · exact absurd hnil (List.not_mem_nil p)
                · exact hok
              · intro b hb hbm
                obtain ⟨⟨s, hs⟩, hl⟩ := ih3 b hb hbm
                exact ⟨⟨s, List.mem_append_right _ hs⟩,
                  List.mem_append_right _ hl⟩

/-- Witness for C5: a fully successful single-target run produces the
map `release-1.0 ↦ 123`, whose invariants the theorem certifies. -/
theorem C5_witness :
    (∀ k ∈ keysOf [("release-1.0", 123)], k ∈ ["release-1.0"]) ∧
    (∀ p ∈ [("release-1.0", 123)],
      (backportOnce envAllOk
        (onceArgs
          (sampleArgs (samplePayload true (some "abc123")
            [⟨"backport base:release-1.0"⟩]))
          (mkCtx (sampleArgs (samplePayload true (some "abc123")
            [⟨"backport base:release-1.0"⟩])))
          p.1)).2 = Except.ok p.2) ∧
    (∀ b ∈ ["release-1.0"], b ∉ keysOf [("release-1.0", 123)] →
      (∃ s, Effect.apiCreateComment
          (mkCtx (sampleArgs (samplePayload true (some "abc123")
            [⟨"backport base:release-1.0"⟩]))).prNumber s ∈
        (backport envAllOk
          (sampleArgs (samplePayload true (some "abc123")
            [⟨"backport base:release-1.0"⟩]))).1) ∧
      Effect.apiAddLabels
          (mkCtx (sampleArgs (samplePayload true (some "abc123")
            [⟨"backport base:release-1.0"⟩]))).prNumber (failedLabels b) ∈
        (backport envAllOk
          (sampleArgs (samplePayload true (some "abc123")
            [⟨"backport base:release-1.0"⟩]))).1) :=
  C5_result_map_invariant envAllOk
    (sampleArgs (samplePayload true (some "abc123")
      [⟨"backport base:release-1.0"⟩]))
    ["release-1.0"] [("release-1.0", 123)] (by decide) (by decide)

/-- Environment for the counterexamples of C2 and C6: the cherry-pick
conflicts on every target, and the recovery comment call itself fails. -/
def envRecoveryFail : Env :=
  { run := fun e =>
      match e with
      | Effect.gitCherryPick _ => .error "conflict"
      | Effect.apiCreateComment _ _ => .error "comment failed"
      | _ => .ok ()
  , createPullNumber := fun _ _ => 123 }

def argsTwoTargets : BackportArgs :=
  sampleArgs (samplePayload true (some "abc123")
    [⟨"backport base:b1"⟩, ⟨"backport base:b2"⟩])

/-- Claim C2, counterexample: when recovering from the first target's
cherry-pick conflict, the failure-comment call itself fails; that error
is escalated to the caller — the whole run rejects with the comment
call's error instead of returning a result map. -/
theorem C2_counterexample :
    (backport envRecoveryFail argsTwoTargets).2 =
      Except.error "comment failed" := by decide

/-- Claim C2 (amended): if, while recovering from a per-target failure,
the call posting the failure comment or the call applying the failure
labels itself fails, that error is not caught: it escapes the target
boundary, the loop stops with it, and the run produces no result map —
the loop's outcome is exactly the failed target's effects followed by
the attempted recovery calls and the escalated error.  The first
conjunct covers the comment call failing; the second covers the comment
call succeeding and the label-application call failing. -/
theorem C2_recovery_failure_escalates (env : Env) (A : BackportArgs)
    (c : RunCtx) (base : String) (rest : List String)
    (acc : List (String × Nat)) (msg : String)
    (hfail : (backportOnce env (onceArgs A c base)).2 = Except.error msg) :
    (∀ e2, env.run (commentEffect A c base msg) = Except.error e2 →
      backportLoop env A c (base :: rest) acc =
        ((backportOnce env (onceArgs A c base)).1 ++
          [commentEffect A c base msg], Except.error e2)) ∧
    (∀ e3, env.run (commentEffect A c base msg) = Except.ok () →
      env.run (failedLabelsEffect c base) = Except.error e3 →
      backportLoop env A c (base :: rest) acc =
        ((backportOnce env (onceArgs A c base)).1 ++
          [commentEffect A c base msg, failedLabelsEffect c base],
         Except.error e3)) := by
  rcases hBO : backportOnce env (onceArgs A c base) with ⟨trB, resB⟩
  rw [hBO] at hfail
  simp only at hfail
  subst hfail
  constructor
  · intro e2 hcomment
    rw [backportLoop, processTarget, hBO]
    simp [hcomment]
  · intro e3 hcomment hlabels
    rw [backportLoop, processTarget, hBO]
    simp [hcomment, hlabels]

/-- Environment for the second C2 witness conjunct: the cherry-pick
conflicts, the recovery comment call succeeds, and the recovery
label-application call itself fails. -/
def envLabelsFail : Env :=
  { run := fun e =>
      match e with
      | Effect.gitCherryPick _ => .error "conflict"
      | Effect.apiAddLabels _ _ => .error "labels failed"
      | _ => .ok ()
  , createPullNumber := fun _ _ => 123 }

/-- Witness for C2 (amended): both failure paths at concrete inputs —
a failing comment call escalates its error, and a succeeding comment
call followed by a failing label-application call escalates that
error. -/
theorem C2_witness :
    backportLoop envRecoveryFail argsTwoTargets (mkCtx argsTwoTargets)
        ["b1", "b2"] [] =
      ((backportOnce envRecoveryFail
          (onceArgs argsTwoTargets (mkCtx argsTwoTargets) "b1")).1 ++
        [commentEffect argsTwoTargets (mkCtx argsTwoTargets) "b1"
          "conflict"], Except.error "comment failed") ∧
    backportLoop envLabelsFail argsTwoTargets (mkCtx argsTwoTargets)
        ["b1", "b2"] [] =
      ((backportOnce envLabelsFail
          (onceArgs argsTwoTargets (mkCtx argsTwoTargets) "b1")).1 ++
        [commentEffect argsTwoTargets (mkCtx argsTwoTargets) "b1"
          "conflict",
         failedLabelsEffect (mkCtx argsTwoTargets) "b1"],
       Except.error "labels failed") :=
  ⟨(C2_recovery_failure_escalates envRecoveryFail argsTwoTargets
      (mkCtx argsTwoTargets) "b1" ["b2"] [] "conflict"
      (by decide)).1 "comment failed" (by decide),
   (C2_recovery_failure_escalates envLabelsFail argsTwoTargets
      (mkCtx argsTwoTargets) "b1" ["b2"] [] "conflict"
      (by decide)).2 "labels failed" (by decide) (by decide)⟩

/-- Claim C6, counterexample: target `b1` fails (cherry-pick conflict),
yet target `b2` is never processed — no `git switch b2` is ever issued —
because the recovery comment call for `b1` fails and aborts the loop;
a per-target failure can therefore abort the loop. -/
theorem C6_counterexample :
    Effect.gitSwitch "b2" ∉ (backport envRecoveryFail argsTwoTargets).1 ∧
    (backport envRecoveryFail argsTwoTargets).2 =
      Except.error "comment failed" := by
  constructor
  · decide
  · decide

/-- Claim C6 (amended): if processing target `k` fails and the recovery
comment and label calls for it succeed, the failure is caught at the
target boundary and targets `k+1..N` are still processed (and may
succeed) with unchanged accumulator; the loop's trace is target `k`'s
effects (workflow attempt, comment, labels) followed by the remaining
targets' effects in input order, and the loop's outcome is that of the
remaining targets. -/
theorem C6_failure_continues_when_recovery_succeeds (env : Env)
    (A : BackportArgs) (c : RunCtx) (base : String) (rest : List String)
    (acc : List (String × Nat)) (msg : String)
    (hfail : (backportOnce env (onceArgs A c base)).2 = Except.error msg)
    (hcomment : env.run (commentEffect A c base msg) = Except.ok ())
    (hlabels : env.run (failedLabelsEffect c base) = Except.ok ()) :
    backportLoop env A c (base :: rest) acc =
      ((backportOnce env (onceArgs A c base)).1 ++
        [commentEffect A c base msg, failedLabelsEffect c base] ++
        (backportLoop env A c rest acc).1,
       (backportLoop env A c rest acc).2) := by
  rcases hBO : backportOnce env (onceArgs A c base) with ⟨trB, resB⟩
  rw [hBO] at hfail
  simp only at hfail
  subst hfail
  rw [backportLoop, processTarget, hBO]
  simp [hcomment, hlabels, List.append_assoc]

def argsOneTarget : BackportArgs :=
  sampleArgs (samplePayload true (some "abc123")
    [⟨"backport base:release-1.0"⟩])

/-- Witness for C10: on a fully successful target, the label-application
call on the created pull request appears in the trace. -/
theorem C10_witness :
    targetLabels argsOneTarget (mkCtx argsOneTarget) "release-1.0" ≠ [] ∧
    "backports" ∈
      targetLabels argsOneTarget (mkCtx argsOneTarget) "release-1.0" ∧
    ("backported-to-" ++ "release-1.0") ∈
      targetLabels argsOneTarget (mkCtx argsOneTarget) "release-1.0" ∧
    Effect.apiSetLabels 123
        (targetLabels argsOneTarget (mkCtx argsOneTarget) "release-1.0") ∈
      (backportOnce envAllOk
        (onceArgs argsOneTarget (mkCtx argsOneTarget) "release-1.0")).1 :=
  C10_labels_always_applied envAllOk argsOneTarget (mkCtx argsOneTarget)
    "release-1.0"
    (backportOnce envAllOk
      (onceArgs argsOneTarget (mkCtx argsOneTarget) "release-1.0")).1
    123 (by decide)

def argsCherryTwo : BackportArgs :=
  sampleArgs (samplePayload true (some "abc123")
    [⟨"backport base:b1"⟩, ⟨"backport base:b2"⟩])

/-- Witness for C6 (amended): cherry-picks conflict but recovery
succeeds, so after `b1` fails the loop still processes `b2`. -/
theorem C6_witness :
    backportLoop envCherryFail argsCherryTwo (mkCtx argsCherryTwo)
        ["b1", "b2"] [] =
      ((backportOnce envCherryFail
          (onceArgs argsCherryTwo (mkCtx argsCherryTwo) "b1")).1 ++
        [commentEffect argsCherryTwo (mkCtx argsCherryTwo) "b1" "conflict",
         failedLabelsEffect (mkCtx argsCherryTwo) "b1"] ++
        (backportLoop envCherryFail argsCherryTwo (mkCtx argsCherryTwo)
          ["b2"] []).1,
       (backportLoop envCherryFail argsCherryTwo (mkCtx argsCherryTwo)
         ["b2"] []).2) :=
  C6_failure_continues_when_recovery_succeeds envCherryFail argsCherryTwo
    (mkCtx argsCherryTwo) "b1" ["b2"] [] "conflict"
    (by decide) (by decide) (by decide)

end Backport
